import Mathlib

/-!
Verification of the Khatwa persistence / backup layer.

The development shallowly embeds the persistence core of the Khatwa
task-tracking app:

* a `Json` value type modelling the JSON trees produced by `JSON.parse`
  (the browser's IndexedDB stores structured clones of such trees);
* the backup codec (`validateImportData`, `parseImportFile`,
  `exportAllData`, `importAllData`) from `src/lib/import-export.ts`;
* the import coordinator (`setImportInProgress` flag and
  `handleConfirmImport` from `settings-menu.tsx`);
* the two debounced persistence hooks (`use-task-store.ts` and
  `use-document-store.ts`) together with the task mutation operations
  `removeItem` and `toggleSubTask` from the main page component.

Conventions: strings of the source are kept verbatim; JS `setTimeout`
debouncing is modelled by explicit timer fields storing the scheduled
delay and captured value; firing a timer is an explicit step function
parameterised by the process-wide `importInProgress` flag.
-/

namespace Khatwa

/-- JSON values, as produced by `JSON.parse`.  Numbers are modelled as
integers (all numeric fields of the backup format — `version`,
`createdAt`, `updatedAt` — are integers). -/
inductive Json where
  | null
  | bool (b : Bool)
  | num (n : Int)
  | str (s : String)
  | arr (elems : List Json)
  | obj (fields : List (String × Json))

mutual

def Json.decEq : (a b : Json) → Decidable (a = b)
  | .null, .null => isTrue rfl
  | .bool a, .bool b =>
    if h : a = b then isTrue (by rw [h]) else isFalse (fun e => h (by injection e))
  | .num a, .num b =>
    if h : a = b then isTrue (by rw [h]) else isFalse (fun e => h (by injection e))
  | .str a, .str b =>
    if h : a = b then isTrue (by rw [h]) else isFalse (fun e => h (by injection e))
  | .arr as, .arr bs =>
    match Json.decEqList as bs with
    | isTrue h => isTrue (by rw [h])
    | isFalse h => isFalse (fun e => h (by injection e))
  | .obj fs, .obj gs =>
    match Json.decEqFields fs gs with
    | isTrue h => isTrue (by rw [h])
    | isFalse h => isFalse (fun e => h (by injection e))
  | .null, .bool _ => isFalse (fun e => Json.noConfusion e)
  | .null, .num _ => isFalse (fun e => Json.noConfusion e)
  | .null, .str _ => isFalse (fun e => Json.noConfusion e)
  | .null, .arr _ => isFalse (fun e => Json.noConfusion e)
  | .null, .obj _ => isFalse (fun e => Json.noConfusion e)
  | .bool _, .null => isFalse (fun e => Json.noConfusion e)
  | .bool _, .num _ => isFalse (fun e => Json.noConfusion e)
  | .bool _, .str _ => isFalse (fun e => Json.noConfusion e)
  | .bool _, .arr _ => isFalse (fun e => Json.noConfusion e)
  | .bool _, .obj _ => isFalse (fun e => Json.noConfusion e)
  | .num _, .null => isFalse (fun e => Json.noConfusion e)
  | .num _, .bool _ => isFalse (fun e => Json.noConfusion e)
  | .num _, .str _ => isFalse (fun e => Json.noConfusion e)
  | .num _, .arr _ => isFalse (fun e => Json.noConfusion e)
  | .num _, .obj _ => isFalse (fun e => Json.noConfusion e)
  | .str _, .null => isFalse (fun e => Json.noConfusion e)
  | .str _, .bool _ => isFalse (fun e => Json.noConfusion e)
  | .str _, .num _ => isFalse (fun e => Json.noConfusion e)
  | .str _, .arr _ => isFalse (fun e => Json.noConfusion e)
  | .str _, .obj _ => isFalse (fun e => Json.noConfusion e)
  | .arr _, .null => isFalse (fun e => Json.noConfusion e)
  | .arr _, .bool _ => isFalse (fun e => Json.noConfusion e)
  | .arr _, .num _ => isFalse (fun e => Json.noConfusion e)
  | .arr _, .str _ => isFalse (fun e => Json.noConfusion e)
  | .arr _, .obj _ => isFalse (fun e => Json.noConfusion e)
  | .obj _, .null => isFalse (fun e => Json.noConfusion e)
  | .obj _, .bool _ => isFalse (fun e => Json.noConfusion e)
  | .obj _, .num _ => isFalse (fun e => Json.noConfusion e)
  | .obj _, .str _ => isFalse (fun e => Json.noConfusion e)
  | .obj _, .arr _ => isFalse (fun e => Json.noConfusion e)

def Json.decEqList : (as bs : List Json) → Decidable (as = bs)
  | [], [] => isTrue rfl
  | [], _ :: _ => isFalse (fun e => List.noConfusion e)
  | _ :: _, [] => isFalse (fun e => List.noConfusion e)
  | a :: as, b :: bs =>
    match Json.decEq a b with
    | isFalse h => isFalse (fun e => h (by injection e))
    | isTrue h1 =>
      match Json.decEqList as bs with
      | isTrue h2 => isTrue (by rw [h1, h2])
      | isFalse h2 => isFalse (fun e => h2 (by injection e))

def Json.decEqFields : (fs gs : List (String × Json)) → Decidable (fs = gs)
  | [], [] => isTrue rfl
  | [], _ :: _ => isFalse (fun e => List.noConfusion e)
  | _ :: _, [] => isFalse (fun e => List.noConfusion e)
  | (k, v) :: fs, (k', v') :: gs =>
    if hk : k = k' then
      match Json.decEq v v' with
      | isFalse h => isFalse (fun e => by injection e with e1 _; exact h (congrArg Prod.snd e1))
      | isTrue hv =>
        match Json.decEqFields fs gs with
        | isTrue ht => isTrue (by rw [hk, hv, ht])
        | isFalse ht => isFalse (fun e => ht (by injection e))
    else isFalse (fun e => by injection e with e1 _; exact hk (congrArg Prod.fst e1))

end

instance : DecidableEq Json := Json.decEq

/-- Association-list update with JS object / `Map.set` semantics: replace
the value of an existing key in place, otherwise append the new entry. -/
def setKey {α : Type} : List (String × α) → String → α → List (String × α)
  | [], key, v => [(key, v)]
  | (k, w) :: rest, key, v =>
    if k = key then (key, v) :: rest else (k, w) :: setKey rest key v

/-- Association-list lookup (JS property access / `Map.get`). -/
def lookupKey {α : Type} : List (String × α) → String → Option α
  | [], _ => none
  | (k, v) :: rest, key => if k = key then some v else lookupKey rest key

/-- Association-list removal (JS `delete obj[k]` / `Map.delete`). -/
def eraseKey {α : Type} : List (String × α) → String → List (String × α)
  | [], _ => []
  | (k, v) :: rest, key => if k = key then rest else (k, v) :: eraseKey rest key

/-- JS property access `value[key]`: defined on objects, `undefined`
(`none`) on every other JSON value (including arrays, whose elements are
not reachable by string keys in a parsed JSON tree). -/
def Json.getField : Json → String → Option Json
  | .obj fields, key => lookupKey fields key
  | _, _ => none

/-- `x && typeof x === 'object'` for a JSON value: `null` is falsy (even
though `typeof null === 'object'`), and both objects and arrays have
`typeof === 'object'`. -/
def Json.isTruthyObject : Json → Bool
  | .obj _ => true
  | .arr _ => true
  | _ => false

/-- `typeof x === 'string'` on a possibly-`undefined` property value. -/
def isStringValue : Option Json → Bool
  | some (.str _) => true
  | _ => false

/-- `Array.isArray(x)` on a possibly-`undefined` property value. -/
def isArrayValue : Option Json → Bool
  | some (.arr _) => true
  | _ => false

/-- `typeof x === 'object' && x !== null` on a possibly-`undefined`
property value (arrays pass, `null` and `undefined` do not). -/
def isObjectValue : Option Json → Bool
  | some (.obj _) => true
  | some (.arr _) => true
  | _ => false

/-! ## Backup codec (`src/lib/import-export.ts`) -/

/-- `EXPORT_VERSION` — the codec's current format version. -/
def EXPORT_VERSION : Int := 1

/-- `ValidationResult` of `validateImportData`. -/
structure ValidationResult where
  valid : Bool
  error : Option String
deriving DecidableEq

/-- The per-element loop of the tasks check: first error, if any, of the
task entries (object shape, string `id` and `label`, array `subTasks`). -/
def checkTasksList : List Json → Option String
  | [] => none
  | t :: rest =>
    if t.isTruthyObject then
      if isStringValue (t.getField "id") && isStringValue (t.getField "label") then
        if isArrayValue (t.getField "subTasks") then checkTasksList rest
        else some "Task missing subTasks array"
      else some "Task missing required fields (id, label)"
    else some "Invalid task entry"

/-- The per-element loop of the documents check: first error, if any, of
the document entries (object shape, string `id`, `taskId`, `title`). -/
def checkDocsList : List Json → Option String
  | [] => none
  | d :: rest =>
    if d.isTruthyObject then
      if isStringValue (d.getField "id") && isStringValue (d.getField "taskId")
          && isStringValue (d.getField "title") then
        checkDocsList rest
      else some "Document missing required fields (id, taskId, title)"
    else some "Invalid document entry"

/-- The version-too-new message (template literal of the source, with the
offending version and `EXPORT_VERSION` interpolated). -/
def versionTooNewMsg (v : Int) : String :=
  "Export version " ++ toString v ++ " is newer than supported version "
    ++ toString EXPORT_VERSION ++ ". Please update the app."

/-- The `version` section of `validateImportData`: a numeric `version`
not exceeding `EXPORT_VERSION` passes; a non-number is rejected. -/
def versionError (data : Json) : Option String :=
  match data.getField "version" with
  | some (.num v) =>
    if EXPORT_VERSION < v then some (versionTooNewMsg v) else none
  | _ => some "Missing or invalid version number"

/-- The `tasks` section of `validateImportData`. -/
def tasksError (data : Json) : Option String :=
  match data.getField "tasks" with
  | some (.arr tasks) => checkTasksList tasks
  | _ => some "Missing or invalid tasks array"

/-- The `documents` section of `validateImportData`. -/
def documentsError (data : Json) : Option String :=
  match data.getField "documents" with
  | some (.arr docs) => checkDocsList docs
  | _ => some "Missing or invalid documents array"

/-- The `settings` section of `validateImportData`: `settings` must be a
truthy object, `settings.columnById` a non-null object, and
`settings.viewMode` one of the supported view-mode strings. -/
def settingsError (data : Json) : Option String :=
  match data.getField "settings" with
  | some s =>
    if s.isTruthyObject then
      if isObjectValue (s.getField "columnById") then
        match s.getField "viewMode" with
        | some (.str vm) =>
          if vm = "list" ∨ vm = "columns" ∨ vm = "documents" then none
          else some "Invalid settings.viewMode"
        | _ => some "Invalid settings.viewMode"
      else some "Missing or invalid settings.columnById"
    else some "Missing or invalid settings object"
  | none => some "Missing or invalid settings object"

/-- `validateImportData` — structural validation of an arbitrary parsed
JSON value, returning the first failing section's message.  Total by
construction (the source never throws). -/
def validateImportData (data : Json) : ValidationResult :=
  if data.isTruthyObject then
    match versionError data with
    | some e => { valid := false, error := some e }
    | none =>
      match tasksError data with
      | some e => { valid := false, error := some e }
      | none =>
        match documentsError data with
        | some e => { valid := false, error := some e }
        | none =>
          match settingsError data with
          | some e => { valid := false, error := some e }
          | none => { valid := true, error := none }
  else { valid := false, error := some "Invalid data format: expected an object" }

/-- Result of `parseImportFile`. -/
structure ParseResult where
  data : Option Json
  error : Option String
deriving DecidableEq

/-- `parseImportFile` — the `JSON.parse` step is modelled by the
`Option Json` argument (`none` = syntax error, reported distinctly);
a parsed value is returned only if `validateImportData` passes. -/
def parseImportFile (content : Option Json) : ParseResult :=
  match content with
  | none => { data := none, error := some "Invalid JSON format. Please check the file contents." }
  | some parsed =>
    let validation := validateImportData parsed
    if validation.valid then { data := some parsed, error := none }
    else { data := none, error := validation.error }

/-! ## Record store state (`src/lib/db.ts`)

The three Dexie tables.  IndexedDB stores structured clones of arbitrary
JS objects, so the `tasks` and `documents` tables hold `Json` values and
the `settings` table maps keys to `Json` values. -/

/-- The contents of the three tables of the `khatwa` database. -/
structure DbState where
  tasks : List Json
  documents : List Json
  settings : List (String × Json)
deriving DecidableEq

/-- `getSetting(key)` — `record?.value`. -/
def getSettingJson (s : DbState) (key : String) : Option Json :=
  lookupKey s.settings key

/-- `exportAllData` — the backup envelope whose pretty-printed
serialisation the source returns.  (`JSON.parse ∘ JSON.stringify` is the
identity on JSON trees, so the envelope itself is the parse of the
exported string.)  Settings default to `{}` / `'list'` when absent. -/
def exportAllData (s : DbState) (exportedAt : String) : Json :=
  .obj [ ("version", .num EXPORT_VERSION)
       , ("exportedAt", .str exportedAt)
       , ("tasks", .arr s.tasks)
       , ("documents", .arr s.documents)
       , ("settings", .obj [ ("columnById", (getSettingJson s "columnById").getD (.obj []))
                           , ("viewMode", (getSettingJson s "viewMode").getD (.str "list")) ]) ]

/-- `importAllData` — replaces the whole store inside one transaction:
clear all three tables, bulk-insert the tasks, bulk-insert only the
documents whose `taskId` is in the set of imported task ids, and put the
two settings keys.  `none` models the transaction throwing (field access
on a value without the expected shape), which leaves the store
untouched; it cannot occur for validated envelopes. -/
def importAllData (data : Json) (_s : DbState) : Option DbState :=
  match data.getField "tasks", data.getField "documents", data.getField "settings" with
  | some (.arr tasks), some (.arr docs), some settings =>
    match settings.getField "columnById", settings.getField "viewMode" with
    | some columnById, some viewMode =>
      let validTaskIds := tasks.map (fun t => t.getField "id")
      let validDocuments := docs.filter (fun d => decide (d.getField "taskId" ∈ validTaskIds))
      some { tasks := tasks
           , documents := validDocuments
           , settings := setKey (setKey [] "columnById" columnById) "viewMode" viewMode }
    | _, _ => none
  | _, _, _ => none

/-! ## Import coordinator (`settings-menu.tsx` and the
`importInProgress` flag of `db.ts`) -/

/-- The process-wide state seen by `handleConfirmImport`: the database
and the `importInProgress` flag. -/
structure World where
  db : DbState
  importFlag : Bool
deriving DecidableEq

/-- `handleConfirmImport` — parse and validate; on failure surface the
error and return with no store mutation and the flag untouched.  On
success set the flag, run `importAllData`; if the transaction throws,
reset the flag and surface a generic error (store unchanged by
transaction atomicity).  Returns the new world and the surfaced error,
if any. -/
def handleConfirmImport (content : Option Json) (w : World) : World × Option String :=
  let pr := parseImportFile content
  match pr.data with
  | none => (w, some (pr.error.getD "Failed to parse data"))
  | some data =>
    let w1 : World := { w with importFlag := true }
    match importAllData data w1.db with
    | some db' => ({ w1 with db := db' }, none)
    | none => ({ w1 with importFlag := false }, some "Failed to import data. Please try again.")

/-- Round trip of the backup codec: export the store, parse the exported
text (its JSON tree), and import the resulting envelope. -/
def roundTrip (s : DbState) (exportedAt : String) : Option DbState :=
  match (parseImportFile (some (exportAllData s exportedAt))).data with
  | none => none
  | some env => importAllData env s

/-! ## Spec-side formulations of the five validation checks (§4.3 of the
spec).  "Object" is read in the JS sense of the code being specified:
non-null with `typeof === 'object'`. -/

/-- Check (1): the top-level value is an object. -/
def specCheckObject (j : Json) : Prop := j.isTruthyObject = true

/-- Check (2): `version` is a number not exceeding the supported version. -/
def specCheckVersion (j : Json) : Prop :=
  ∃ v : Int, j.getField "version" = some (.num v) ∧ v ≤ EXPORT_VERSION

/-- A task element has string `id`, string `label` and an array `subTasks`. -/
def specTaskOk (t : Json) : Prop :=
  (∃ s, t.getField "id" = some (.str s)) ∧ (∃ s, t.getField "label" = some (.str s)) ∧
    (∃ xs, t.getField "subTasks" = some (.arr xs))

/-- Check (3): `tasks` is an array of well-formed task elements. -/
def specCheckTasks (j : Json) : Prop :=
  ∃ ts, j.getField "tasks" = some (.arr ts) ∧ ∀ t ∈ ts, specTaskOk t

/-- A document element has string `id`, `taskId` and `title`. -/
def specDocOk (d : Json) : Prop :=
  (∃ s, d.getField "id" = some (.str s)) ∧ (∃ s, d.getField "taskId" = some (.str s)) ∧
    (∃ s, d.getField "title" = some (.str s))

/-- Check (4): `documents` is an array of well-formed document elements. -/
def specCheckDocs (j : Json) : Prop :=
  ∃ ds, j.getField "documents" = some (.arr ds) ∧ ∀ d ∈ ds, specDocOk d

/-- Check (5): `settings` is an object with an object `columnById` and a
supported `viewMode`. -/
def specCheckSettings (j : Json) : Prop :=
  ∃ s, j.getField "settings" = some s ∧ s.isTruthyObject = true ∧
    isObjectValue (s.getField "columnById") = true ∧
    ∃ vm, s.getField "viewMode" = some (.str vm) ∧
      (vm = "list" ∨ vm = "columns" ∨ vm = "documents")

/-- The messages the tasks section can fail with. -/
def tasksStageMsgs : List String :=
  [ "Missing or invalid tasks array", "Invalid task entry"
  , "Task missing required fields (id, label)", "Task missing subTasks array" ]

/-- The messages the documents section can fail with. -/
def docsStageMsgs : List String :=
  [ "Missing or invalid documents array", "Invalid document entry"
  , "Document missing required fields (id, taskId, title)" ]

/-- The messages the settings section can fail with. -/
def settingsStageMsgs : List String :=
  [ "Missing or invalid settings object", "Missing or invalid settings.columnById"
  , "Invalid settings.viewMode" ]

/-! ## Typed records (`src/lib/db.ts`) and the persistence hooks -/

/-- Kanban column identifiers (`COLUMNS` of the page component):
`column-1` = "Not started", `column-2` = "In progress",
`column-3` = "Completed". -/
inductive ColumnId where
  | column1
  | column2
  | column3
deriving DecidableEq

/-- `DEFAULT_COLUMN` — the column of tasks with no mapping. -/
def DEFAULT_COLUMN : ColumnId := .column1

/-- The supported view modes. -/
inductive ViewMode where
  | list
  | columns
  | documents
deriving DecidableEq

/-- `SubTask` record. -/
structure SubTask where
  id : String
  label : String
  completed : Bool
deriving DecidableEq

/-- `TaskRecord`. -/
structure TaskRecord where
  id : String
  label : String
  link : Option String
  subTasks : List SubTask
deriving DecidableEq

/-- `DocumentRecord` (the rich-text `content` is a JSON tree). -/
structure DocumentRecord where
  id : String
  taskId : String
  title : String
  content : Json
  createdAt : Nat
  updatedAt : Nat
deriving DecidableEq

/-- A store operation issued by the hooks against the database helpers of
`db.ts` (`saveTasks`, `setSetting`, `saveDocument`, `deleteDocument`,
`deleteDocumentsByTaskId`). -/
inductive StoreOp where
  | saveTasksOp (tasks : List TaskRecord)
  | setColumnByIdOp (columnById : List (String × ColumnId))
  | setViewModeOp (vm : ViewMode)
  | putDocOp (doc : DocumentRecord)
  | deleteDocOp (id : String)
  | deleteDocsByTaskOp (taskId : String)
deriving DecidableEq

/-- The typed view of the database as seen through the `db.ts` helpers. -/
structure HookDb where
  tasks : List TaskRecord
  documents : List DocumentRecord
  columnByIdSetting : Option (List (String × ColumnId))
  viewModeSetting : Option ViewMode
deriving DecidableEq

/-- `saveDocument` / `db.documents.put` — upsert by primary key `id`. -/
def putDocument (docs : List DocumentRecord) (d : DocumentRecord) : List DocumentRecord :=
  if docs.any (fun x => decide (x.id = d.id)) then
    docs.map (fun x => if x.id = d.id then d else x)
  else docs ++ [d]

/-- Apply one store operation to the database. -/
def applyOp (db : HookDb) : StoreOp → HookDb
  | .saveTasksOp ts => { db with tasks := ts }
  | .setColumnByIdOp m => { db with columnByIdSetting := some m }
  | .setViewModeOp v => { db with viewModeSetting := some v }
  | .putDocOp d => { db with documents := putDocument db.documents d }
  | .deleteDocOp id => { db with documents := db.documents.filter (fun x => decide ¬(x.id = id)) }
  | .deleteDocsByTaskOp t =>
    { db with documents := db.documents.filter (fun x => decide ¬(x.taskId = t)) }

/-- Apply a sequence of store operations in order. -/
def applyOps (ops : List StoreOp) (db : HookDb) : HookDb :=
  ops.foldl applyOp db

/-- `DEBOUNCE_MS` of `use-task-store.ts`. -/
def taskStoreDebounceMs : Nat := 300

/-- `DEBOUNCE_MS` of `use-document-store.ts`. -/
def docStoreDebounceMs : Nat := 300

/-- The editor modal's autosave delay (`documents-view.tsx`): the delay
between a title/content edit and the `updateDocument` call, upstream of
the document store's own debounce. -/
def editorAutosaveDelayMs : Nat := 500

/-- In-memory state of `useTaskStore` after hydration: the three state
slices and the three debounce timers, each holding the scheduled delay
and the value captured by the timeout closure. -/
structure TaskHookState where
  items : List TaskRecord
  columnById : List (String × ColumnId)
  viewMode : ViewMode
  itemsTimer : Option (Nat × List TaskRecord)
  columnByIdTimer : Option (Nat × List (String × ColumnId))
  viewModeTimer : Option (Nat × ViewMode)
deriving DecidableEq

/-- `setItems` together with the debounced items persistence effect: the
state update plus the effect that clears the previous timeout and
schedules `saveTasks(items)` after `DEBOUNCE_MS` (post-hydration). -/
def setItemsEffect (newItems : List TaskRecord) (st : TaskHookState) : TaskHookState :=
  { st with items := newItems, itemsTimer := some (taskStoreDebounceMs, newItems) }

/-- `setColumnById` together with its debounced persistence effect. -/
def setColumnByIdEffect (newCols : List (String × ColumnId)) (st : TaskHookState) :
    TaskHookState :=
  { st with columnById := newCols, columnByIdTimer := some (taskStoreDebounceMs, newCols) }

/-- `setViewMode` together with its debounced persistence effect. -/
def setViewModeEffect (newMode : ViewMode) (st : TaskHookState) : TaskHookState :=
  { st with viewMode := newMode, viewModeTimer := some (taskStoreDebounceMs, newMode) }

/-- The items timeout firing: the timer handle is spent; if
`isImportInProgress()` the write is skipped and the captured value is
discarded, otherwise one `saveTasks` with the captured items. -/
def fireItemsTimer (importFlag : Bool) (st : TaskHookState) : TaskHookState × List StoreOp :=
  match st.itemsTimer with
  | none => (st, [])
  | some (_, its) =>
    if importFlag then ({ st with itemsTimer := none }, [])
    else ({ st with itemsTimer := none }, [.saveTasksOp its])

/-- The columnById timeout firing (same shape as the items timeout). -/
def fireColumnByIdTimer (importFlag : Bool) (st : TaskHookState) :
    TaskHookState × List StoreOp :=
  match st.columnByIdTimer with
  | none => (st, [])
  | some (_, m) =>
    if importFlag then ({ st with columnByIdTimer := none }, [])
    else ({ st with columnByIdTimer := none }, [.setColumnByIdOp m])

/-- The viewMode timeout firing (same shape as the items timeout). -/
def fireViewModeTimer (importFlag : Bool) (st : TaskHookState) :
    TaskHookState × List StoreOp :=
  match st.viewModeTimer with
  | none => (st, [])
  | some (_, v) =>
    if importFlag then ({ st with viewModeTimer := none }, [])
    else ({ st with viewModeTimer := none }, [.setViewModeOp v])

/-- In-memory state of `useDocumentStore` after hydration: the documents,
the pending-writes map keyed by document id (`pendingSavesRef`) and the
single debounce timer (`saveTimeoutRef`, holding its scheduled delay). -/
structure DocHookState where
  documents : List DocumentRecord
  pendingSaves : List (String × DocumentRecord)
  saveTimer : Option Nat
deriving DecidableEq

/-- `scheduleSave` — record the document in the pending map (last write
per id wins) and clear-and-restart the single debounce timer. -/
def scheduleSave (d : DocumentRecord) (st : DocHookState) : DocHookState :=
  { st with pendingSaves := setKey st.pendingSaves d.id d, saveTimer := some docStoreDebounceMs }

/-- The save timeout firing: if `isImportInProgress()` the pending map is
cleared and nothing is written; otherwise the pending map is drained and
each pending document is written with `saveDocument`. -/
def fireSaveTimer (importFlag : Bool) (st : DocHookState) : DocHookState × List StoreOp :=
  match st.saveTimer with
  | none => (st, [])
  | some _ =>
    if importFlag then ({ st with saveTimer := none, pendingSaves := [] }, [])
    else ({ st with saveTimer := none, pendingSaves := [] },
          st.pendingSaves.map (fun p => .putDocOp p.2))

/-- The initial Tiptap content of a new document. -/
def defaultDocContent : Json :=
  .obj [("type", .str "doc"), ("content", .arr [.obj [("type", .str "paragraph")]])]

/-- `addDocument` — build the new record (id and clock are parameters of
the model), append it to memory and schedule its save; no store
operation is issued on the calling path. -/
def addDocument (newId : String) (now : Nat) (taskId title : String) (st : DocHookState) :
    DocHookState × DocumentRecord × List StoreOp :=
  let newDoc : DocumentRecord :=
    { id := newId, taskId := taskId, title := if title = "" then "Untitled" else title
    , content := defaultDocContent, createdAt := now, updatedAt := now }
  (scheduleSave newDoc { st with documents := st.documents ++ [newDoc] }, newDoc, [])

/-- `Partial<Pick<DocumentRecord, 'title' | 'content'>>`. -/
structure DocumentUpdates where
  title : Option String
  content : Option Json
deriving DecidableEq

/-- `{ ...doc, ...updates, updatedAt: Date.now() }`. -/
def applyDocUpdates (d : DocumentRecord) (u : DocumentUpdates) (now : Nat) : DocumentRecord :=
  { d with title := u.title.getD d.title, content := u.content.getD d.content, updatedAt := now }

/-- One step of the `map` over documents inside `updateDocument`: a
matching document is replaced by its updated revision and its save is
scheduled (`scheduleSave` called from inside the map callback). -/
def updateDocumentStep (id : String) (u : DocumentUpdates) (now : Nat)
    (acc : List DocumentRecord × DocHookState) (doc : DocumentRecord) :
    List DocumentRecord × DocHookState :=
  if doc.id = id then
    let updated := applyDocUpdates doc u now
    (acc.1 ++ [updated], scheduleSave updated acc.2)
  else (acc.1 ++ [doc], acc.2)

/-- `updateDocument` — map over the in-memory documents, updating each
match and scheduling its save; no store operation on the calling path. -/
def updateDocument (id : String) (u : DocumentUpdates) (now : Nat) (st : DocHookState) :
    DocHookState × List StoreOp :=
  let r := st.documents.foldl (updateDocumentStep id u now) ([], st)
  ({ r.2 with documents := r.1 }, [])

/-- `deleteDocument` — cancel any pending save for the id, drop it from
memory, and issue the store delete directly on the calling path. -/
def deleteDocument (id : String) (st : DocHookState) : DocHookState × List StoreOp :=
  ({ st with pendingSaves := eraseKey st.pendingSaves id,
             documents := st.documents.filter (fun d => decide ¬(d.id = id)) },
   [.deleteDocOp id])

/-- `deleteDocumentsByTaskId` — cancel the pending saves of the in-memory
documents of the task, drop them from memory, and issue the store delete
directly on the calling path. -/
def deleteDocumentsByTaskId (taskId : String) (st : DocHookState) :
    DocHookState × List StoreOp :=
  let docsToDelete := st.documents.filter (fun d => decide (d.taskId = taskId))
  ({ st with pendingSaves := docsToDelete.foldl (fun m d => eraseKey m d.id) st.pendingSaves,
             documents := st.documents.filter (fun d => decide ¬(d.taskId = taskId)) },
   [.deleteDocsByTaskOp taskId])

/-- `removeItem` (page component): cascade-delete the task's documents
through the document hook, then remove the task from `items` and delete
its column mapping — both setters trigger their debounced persistence
effects. -/
def removeItem (idToRemove : String) (ts : TaskHookState) (ds : DocHookState) :
    TaskHookState × DocHookState × List StoreOp :=
  let r := deleteDocumentsByTaskId idToRemove ds
  let nextItems := ts.items.filter (fun it => decide ¬(it.id = idToRemove))
  let nextCols := eraseKey ts.columnById idToRemove
  (setColumnByIdEffect nextCols (setItemsEffect nextItems ts), r.1, r.2)

/-- One step of the `map` over `items` inside `toggleSubTask`: update the
matching item's sub-tasks and conditionally issue the `setColumnById`
update (whose condition reads the pre-toggle snapshot `origCols`). -/
def toggleSubTaskStep (editId subTaskId : String) (origCols : List (String × ColumnId))
    (acc : List TaskRecord × List (String × ColumnId)) (item : TaskRecord) :
    List TaskRecord × List (String × ColumnId) :=
  if item.id = editId then
    let updatedSubTasks := item.subTasks.map
      (fun sub => if sub.id = subTaskId then { sub with completed := !sub.completed }
                  else sub)
    let hasCompletedSubTask := updatedSubTasks.any (fun sub => sub.completed)
    let currentColumn := (lookupKey origCols item.id).getD DEFAULT_COLUMN
    let nextCols :=
      if hasCompletedSubTask && decide (currentColumn = ColumnId.column1) then
        setKey acc.2 item.id ColumnId.column2
      else acc.2
    (acc.1 ++ [{ item with subTasks := updatedSubTasks }], nextCols)
  else (acc.1 ++ [item], acc.2)

/-- `toggleSubTask` (page component) on `(items, columnById)`: flip the
matching sub-task of the editing item; if any sub-task of the updated
item is completed and the item's current column (defaulting to
`DEFAULT_COLUMN`) is `column-1`, move the item to `column-2`.  A no-op
when no item is being edited. -/
def toggleSubTask (editingItemId : Option String) (subTaskId : String)
    (items : List TaskRecord) (columnById : List (String × ColumnId)) :
    List TaskRecord × List (String × ColumnId) :=
  match editingItemId with
  | none => (items, columnById)
  | some editId =>
    items.foldl (toggleSubTaskStep editId subTaskId columnById) ([], columnById)

/-! ## Concrete sample values used by witnesses and counterexamples -/

/-- A well-formed task element. -/
def sampleTaskJson : Json :=
  .obj [("id", .str "t1"), ("label", .str "Task one"), ("subTasks", .arr [])]

/-- A well-formed document element referencing task `t1`. -/
def sampleDocJson : Json :=
  .obj [ ("id", .str "d1"), ("taskId", .str "t1"), ("title", .str "Doc one")
       , ("content", .obj []), ("createdAt", .num 0), ("updatedAt", .num 0) ]

/-- A well-formed document element whose `taskId` matches no task. -/
def orphanDocJson : Json :=
  .obj [("id", .str "d2"), ("taskId", .str "missing"), ("title", .str "Orphan")]

/-- A valid backup envelope containing one task, one matching document
and one orphaned document. -/
def sampleEnvelope : Json :=
  .obj [ ("version", .num 1), ("exportedAt", .str "2026-01-01T00:00:00.000Z")
       , ("tasks", .arr [sampleTaskJson])
       , ("documents", .arr [sampleDocJson, orphanDocJson])
       , ("settings", .obj [("columnById", .obj []), ("viewMode", .str "list")]) ]

/-- The empty database. -/
def emptyDb : DbState := { tasks := [], documents := [], settings := [] }

/-- A store state whose only document is orphaned (its `taskId` matches
no stored task). -/
def orphanDbState : DbState :=
  { tasks := []
  , documents := [orphanDocJson]
  , settings := [("columnById", .obj []), ("viewMode", .str "list")] }

/-- A well-formed store state: canonical settings and no orphans. -/
def wellFormedDbState : DbState :=
  { tasks := [sampleTaskJson]
  , documents := [sampleDocJson]
  , settings := [("columnById", .obj []), ("viewMode", .str "list")] }

/-- An envelope whose version (2) exceeds the supported version. -/
def vTooNewJson : Json := .obj [("version", .num 2)]

/-- A sample typed document. -/
def sampleDoc : DocumentRecord :=
  { id := "d1", taskId := "t1", title := "Doc", content := .null, createdAt := 0, updatedAt := 0 }

/-- A second revision of `sampleDoc`. -/
def sampleDocEdit : DocumentRecord := { sampleDoc with title := "Doc v2", updatedAt := 5 }

/-- A typed document belonging to another task. -/
def otherTaskDoc : DocumentRecord :=
  { id := "d9", taskId := "t9", title := "Other", content := .null, createdAt := 0, updatedAt := 0 }

/-- A sample task record. -/
def sampleTask : TaskRecord :=
  { id := "t1", label := "Task", link := none, subTasks := [⟨"s1", "Sub", false⟩] }

/-- An empty document hook state. -/
def emptyDocHook : DocHookState := { documents := [], pendingSaves := [], saveTimer := none }

/-- An empty task hook state. -/
def emptyTaskHook : TaskHookState :=
  { items := [], columnById := [], viewMode := .list
  , itemsTimer := none, columnByIdTimer := none, viewModeTimer := none }

/-- A task hook state with all three debounce timers armed. -/
def busyTaskHook : TaskHookState :=
  { items := [sampleTask], columnById := [("t1", .column1)], viewMode := .list
  , itemsTimer := some (taskStoreDebounceMs, [sampleTask])
  , columnByIdTimer := some (taskStoreDebounceMs, [("t1", .column1)])
  , viewModeTimer := some (taskStoreDebounceMs, .list) }

/-- A document hook state with a pending save and an armed timer. -/
def busyDocHook : DocHookState :=
  { documents := [sampleDocEdit, otherTaskDoc]
  , pendingSaves := [("d1", sampleDocEdit), ("d9", otherTaskDoc)]
  , saveTimer := some docStoreDebounceMs }

/-- An empty typed database. -/
def emptyHookDb : HookDb :=
  { tasks := [], documents := [], columnByIdSetting := none, viewModeSetting := none }

/-! ## Characterisation of the validator -/

theorem isStringValue_iff (o : Option Json) :
    isStringValue o = true ↔ ∃ s, o = some (.str s) := by
  cases o with
  | none => simp [isStringValue]
  | some v => cases v <;> simp [isStringValue]

theorem isArrayValue_iff (o : Option Json) :
    isArrayValue o = true ↔ ∃ xs, o = some (.arr xs) := by
  cases o with
  | none => simp [isArrayValue]
  | some v => cases v <;> simp [isArrayValue]

theorem isObjectValue_iff (o : Option Json) :
    isObjectValue o = true ↔ ∃ v, o = some v ∧ v.isTruthyObject = true := by
  cases o with
  | none => simp [isObjectValue]
  | some v => cases v <;> simp [isObjectValue, Json.isTruthyObject]

theorem getField_some_truthy {t : Json} {k : String} {v : Json}
    (h : t.getField k = some v) : t.isTruthyObject = true := by
  cases t <;> simp_all [Json.getField, Json.isTruthyObject]

theorem specTaskOk_iff (t : Json) :
    specTaskOk t ↔ t.isTruthyObject = true ∧
      (isStringValue (t.getField "id") && isStringValue (t.getField "label")) = true ∧
      isArrayValue (t.getField "subTasks") = true := by
  unfold specTaskOk
  constructor
  · rintro ⟨⟨s1, h1⟩, ⟨s2, h2⟩, ⟨xs, h3⟩⟩
    refine ⟨getField_some_truthy h1, ?_, ?_⟩
    · simp [h1, h2, isStringValue]
    · simp [h3, isArrayValue]
  · rintro ⟨_, h2, h3⟩
    rw [Bool.and_eq_true] at h2
    exact ⟨(isStringValue_iff _).mp h2.1, (isStringValue_iff _).mp h2.2,
      (isArrayValue_iff _).mp h3⟩

theorem specDocOk_iff (d : Json) :
    specDocOk d ↔ d.isTruthyObject = true ∧
      (isStringValue (d.getField "id") && isStringValue (d.getField "taskId")
        && isStringValue (d.getField "title")) = true := by
  unfold specDocOk
  constructor
  · rintro ⟨⟨s1, h1⟩, ⟨s2, h2⟩, ⟨s3, h3⟩⟩
    exact ⟨getField_some_truthy h1, by simp [h1, h2, h3, isStringValue]⟩
  · rintro ⟨_, h2⟩
    rw [Bool.and_eq_true, Bool.and_eq_true] at h2
    exact ⟨(isStringValue_iff _).mp h2.1.1, (isStringValue_iff _).mp h2.1.2,
      (isStringValue_iff _).mp h2.2⟩

theorem checkTasksList_eq_none_iff (ts : List Json) :
    checkTasksList ts = none ↔ ∀ t ∈ ts, specTaskOk t := by
  induction ts with
  | nil => simp [checkTasksList]
  | cons t rest ih =>
    rw [checkTasksList]
    split_ifs with h1 h2 h3 <;>
      simp_all [List.forall_mem_cons, specTaskOk_iff]

theorem checkDocsList_eq_none_iff (ds : List Json) :
    checkDocsList ds = none ↔ ∀ d ∈ ds, specDocOk d := by
  induction ds with
  | nil => simp [checkDocsList]
  | cons d rest ih =>
    rw [checkDocsList]
    split_ifs with h1 h2 <;>
      simp_all [List.forall_mem_cons, specDocOk_iff]

theorem versionError_eq_none_iff (j : Json) :
    versionError j = none ↔ specCheckVersion j := by
  unfold versionError specCheckVersion
  cases h : j.getField "version" with
  | none => simp
  | some v =>
    cases v <;> simp [EXPORT_VERSION]

theorem tasksError_eq_none_iff (j : Json) :
    tasksError j = none ↔ specCheckTasks j := by
  unfold tasksError specCheckTasks
  cases h : j.getField "tasks" with
  | none => simp
  | some v => cases v <;> simp [checkTasksList_eq_none_iff]

theorem documentsError_eq_none_iff (j : Json) :
    documentsError j = none ↔ specCheckDocs j := by
  unfold documentsError specCheckDocs
  cases h : j.getField "documents" with
  | none => simp
  | some v => cases v <;> simp [checkDocsList_eq_none_iff]

theorem settingsError_eq_none_iff (j : Json) :
    settingsError j = none ↔ specCheckSettings j := by
  unfold settingsError specCheckSettings
  cases h : j.getField "settings" with
  | none => simp
  | some s =>
    by_cases h1 : s.isTruthyObject = true
    · by_cases h2 : isObjectValue (s.getField "columnById") = true
      · cases hv : s.getField "viewMode" with
        | none => simp [h1, h2, hv]
        | some v =>
          cases v <;> simp [h1, h2, hv]
          tauto
      · simp [h1, h2]
    · simp [h1]

theorem validateImportData_valid_iff (j : Json) :
    (validateImportData j).valid = true ↔
      specCheckObject j ∧ specCheckVersion j ∧ specCheckTasks j ∧ specCheckDocs j ∧
        specCheckSettings j := by
  have hv := versionError_eq_none_iff j
  have ht := tasksError_eq_none_iff j
  have hd := documentsError_eq_none_iff j
  have hs := settingsError_eq_none_iff j
  unfold validateImportData specCheckObject
  by_cases hobj : j.isTruthyObject = true
  · rw [if_pos hobj]
    cases e1 : versionError j <;> cases e2 : tasksError j <;>
      cases e3 : documentsError j <;> cases e4 : settingsError j <;>
      simp_all
  · rw [if_neg hobj]
    simp_all

theorem validateImportData_error_none_iff (j : Json) :
    (validateImportData j).error = none ↔ (validateImportData j).valid = true := by
  unfold validateImportData
  by_cases hobj : j.isTruthyObject = true
  · rw [if_pos hobj]
    cases versionError j <;> cases tasksError j <;> cases documentsError j <;>
      cases settingsError j <;> simp
  · rw [if_neg hobj]
    simp

theorem checkTasksList_some_mem {ts : List Json} {e : String}
    (h : checkTasksList ts = some e) :
    e = "Invalid task entry" ∨ e = "Task missing required fields (id, label)" ∨
      e = "Task missing subTasks array" := by
  induction ts with
  | nil => simp [checkTasksList] at h
  | cons t rest ih =>
    rw [checkTasksList] at h
    split_ifs at h with h1 h2 h3
    · exact ih h
    · simp_all
    · simp_all
    · simp_all

theorem checkDocsList_some_mem {ds : List Json} {e : String}
    (h : checkDocsList ds = some e) :
    e = "Invalid document entry" ∨ e = "Document missing required fields (id, taskId, title)" := by
  induction ds with
  | nil => simp [checkDocsList] at h
  | cons d rest ih =>
    rw [checkDocsList] at h
    split_ifs at h with h1 h2
    · exact ih h
    · simp_all
    · simp_all

theorem versionError_some_char {j : Json} {e : String} (h : versionError j = some e) :
    e = "Missing or invalid version number" ∨
      ∃ v : Int, j.getField "version" = some (.num v) ∧ EXPORT_VERSION < v ∧
        e = versionTooNewMsg v := by
  unfold versionError at h
  rcases hf : j.getField "version" with _ | v
  · rw [hf] at h; simp at h; tauto
  · rw [hf] at h
    cases v <;> simp at h <;> tauto

theorem tasksError_some_mem {j : Json} {e : String} (h : tasksError j = some e) :
    e ∈ tasksStageMsgs := by
  unfold tasksError at h
  rcases hf : j.getField "tasks" with _ | v
  · rw [hf] at h; simp at h; simp [tasksStageMsgs, h]
  · rw [hf] at h
    cases v <;> simp at h <;> try simp [tasksStageMsgs, h]
    case arr ts => rcases checkTasksList_some_mem h with h' | h' | h' <;> simp [tasksStageMsgs, h']

theorem documentsError_some_mem {j : Json} {e : String} (h : documentsError j = some e) :
    e ∈ docsStageMsgs := by
  unfold documentsError at h
  rcases hf : j.getField "documents" with _ | v
  · rw [hf] at h; simp at h; simp [docsStageMsgs, h]
  · rw [hf] at h
    cases v <;> simp at h <;> try simp [docsStageMsgs, h]
    case arr ds => rcases checkDocsList_some_mem h with h' | h' <;> simp [docsStageMsgs, h']

theorem settingsError_some_mem {j : Json} {e : String} (h : settingsError j = some e) :
    e ∈ settingsStageMsgs := by
  unfold settingsError at h
  split at h
  · split_ifs at h with h1 h2
    · split at h
      · split_ifs at h with hvm
        all_goals simp_all [settingsStageMsgs]
      · simp_all [settingsStageMsgs]
    · simp_all [settingsStageMsgs]
    · simp_all [settingsStageMsgs]
  · simp_all [settingsStageMsgs]

theorem validateImportData_not_object {j : Json} (h : ¬ j.isTruthyObject = true) :
    validateImportData j =
      { valid := false, error := some "Invalid data format: expected an object" } := by
  unfold validateImportData
  rw [if_neg h]

theorem validateImportData_version_stage {j : Json} {e : String}
    (hobj : j.isTruthyObject = true) (h : versionError j = some e) :
    validateImportData j = { valid := false, error := some e } := by
  simp [validateImportData, hobj, h]

theorem validateImportData_tasks_stage {j : Json} {e : String}
    (hobj : j.isTruthyObject = true) (h0 : versionError j = none)
    (h : tasksError j = some e) :
    validateImportData j = { valid := false, error := some e } := by
  simp [validateImportData, hobj, h0, h]

theorem validateImportData_docs_stage {j : Json} {e : String}
    (hobj : j.isTruthyObject = true) (h0 : versionError j = none)
    (h1 : tasksError j = none) (h : documentsError j = some e) :
    validateImportData j = { valid := false, error := some e } := by
  simp [validateImportData, hobj, h0, h1, h]

theorem validateImportData_settings_stage {j : Json} {e : String}
    (hobj : j.isTruthyObject = true) (h0 : versionError j = none)
    (h1 : tasksError j = none) (h2 : documentsError j = none)
    (h : settingsError j = some e) :
    validateImportData j = { valid := false, error := some e } := by
  simp [validateImportData, hobj, h0, h1, h2, h]

/-- C4: for every input value, `validateImportData` performs the five
checks of the spec in order — (1) object, (2) numeric version not
exceeding the supported version, (3) well-formed tasks array,
(4) well-formed documents array, (5) settings object with object
`columnById` and supported `viewMode` — short-circuiting on the first
failing check with that check's human-readable message, returning a
pass/fail result object (it is a total function, hence never throws),
and it is valid exactly when all five checks hold. -/
theorem validateImportData_five_checks (j : Json) :
    ((validateImportData j).valid = true ↔
      specCheckObject j ∧ specCheckVersion j ∧ specCheckTasks j ∧ specCheckDocs j ∧
        specCheckSettings j) ∧
    ((validateImportData j).error = none ↔ (validateImportData j).valid = true) ∧
    (¬ specCheckObject j →
      validateImportData j =
        { valid := false, error := some "Invalid data format: expected an object" }) ∧
    (specCheckObject j → ¬ specCheckVersion j →
      (validateImportData j).valid = false ∧
      ((validateImportData j).error = some "Missing or invalid version number" ∨
        ∃ v : Int, j.getField "version" = some (.num v) ∧ EXPORT_VERSION < v ∧
          (validateImportData j).error = some (versionTooNewMsg v))) ∧
    (specCheckObject j → specCheckVersion j → ¬ specCheckTasks j →
      (validateImportData j).valid = false ∧
      ∃ e, (validateImportData j).error = some e ∧ e ∈ tasksStageMsgs) ∧
    (specCheckObject j → specCheckVersion j → specCheckTasks j → ¬ specCheckDocs j →
      (validateImportData j).valid = false ∧
      ∃ e, (validateImportData j).error = some e ∧ e ∈ docsStageMsgs) ∧
    (specCheckObject j → specCheckVersion j → specCheckTasks j → specCheckDocs j →
      ¬ specCheckSettings j →
      (validateImportData j).valid = false ∧
      ∃ e, (validateImportData j).error = some e ∧ e ∈ settingsStageMsgs) := by
  refine ⟨validateImportData_valid_iff j, validateImportData_error_none_iff j, ?_, ?_, ?_, ?_, ?_⟩
  · intro hobj
    exact validateImportData_not_object hobj
  · intro hobj hver
    rcases he : versionError j with _ | e
    · exact absurd ((versionError_eq_none_iff j).mp he) hver
    · rw [validateImportData_version_stage hobj he]
      rcases versionError_some_char he with h' | ⟨v, hv, hlt, h'⟩
      · exact ⟨rfl, Or.inl (by simp [h'])⟩
      · exact ⟨rfl, Or.inr ⟨v, hv, hlt, by simp [h']⟩⟩
  · intro hobj hver htasks
    have h0 : versionError j = none := (versionError_eq_none_iff j).mpr hver
    rcases he : tasksError j with _ | e
    · exact absurd ((tasksError_eq_none_iff j).mp he) htasks
    · rw [validateImportData_tasks_stage hobj h0 he]
      exact ⟨rfl, e, rfl, tasksError_some_mem he⟩
  · intro hobj hver htasks hdocs
    have h0 : versionError j = none := (versionError_eq_none_iff j).mpr hver
    have h1 : tasksError j = none := (tasksError_eq_none_iff j).mpr htasks
    rcases he : documentsError j with _ | e
    · exact absurd ((documentsError_eq_none_iff j).mp he) hdocs
    · rw [validateImportData_docs_stage hobj h0 h1 he]
      exact ⟨rfl, e, rfl, documentsError_some_mem he⟩
  · intro hobj hver htasks hdocs hset
    have h0 : versionError j = none := (versionError_eq_none_iff j).mpr hver
    have h1 : tasksError j = none := (tasksError_eq_none_iff j).mpr htasks
    have h2 : documentsError j = none := (documentsError_eq_none_iff j).mpr hdocs
    rcases he : settingsError j with _ | e
    · exact absurd ((settingsError_eq_none_iff j).mp he) hset
    · rw [validateImportData_settings_stage hobj h0 h1 h2 he]
      exact ⟨rfl, e, rfl, settingsError_some_mem he⟩

/-- C4 witness: the theorem evaluated at the sample envelope — the
validator accepts it, and at `null` — the first check fails with its
message. -/
theorem validateImportData_five_checks_witness :
    ((validateImportData sampleEnvelope).valid = true ↔
      specCheckObject sampleEnvelope ∧ specCheckVersion sampleEnvelope ∧
        specCheckTasks sampleEnvelope ∧ specCheckDocs sampleEnvelope ∧
        specCheckSettings sampleEnvelope) ∧
    validateImportData Json.null =
      { valid := false, error := some "Invalid data format: expected an object" } :=
  ⟨(validateImportData_five_checks sampleEnvelope).1,
   (validateImportData_five_checks Json.null).2.2.1 (by simp [specCheckObject, Json.isTruthyObject])⟩

/-- C3: any input whose `version` field is a number strictly greater
than the supported version 1 is rejected by `validateImportData` with
the explicit upgrade message, and `handleConfirmImport` aborts with that
error surfaced before any store mutation: the world (database
and import flag) is returned unchanged. -/
theorem version_too_new_rejected (j : Json) (v : Int)
    (hfield : j.getField "version" = some (.num v)) (hgt : EXPORT_VERSION < v) :
    (validateImportData j).valid = false ∧
    (validateImportData j).error = some (versionTooNewMsg v) ∧
    ∀ w : World, handleConfirmImport (some j) w = (w, some (versionTooNewMsg v)) := by
  have hobj : j.isTruthyObject = true := getField_some_truthy hfield
  have hver : versionError j = some (versionTooNewMsg v) := by
    unfold versionError
    rw [hfield]
    simp [hgt]
  have hval := validateImportData_version_stage hobj hver
  refine ⟨by rw [hval], by rw [hval], fun w => ?_⟩
  unfold handleConfirmImport parseImportFile
  simp [hval]

/-- C3 witness: a concrete envelope with version 2 is rejected and
the import flow leaves a concrete world untouched. -/
theorem version_too_new_rejected_witness :
    (validateImportData vTooNewJson).valid = false ∧
    (validateImportData vTooNewJson).error = some (versionTooNewMsg 2) ∧
    handleConfirmImport (some vTooNewJson) { db := emptyDb, importFlag := false } =
      ({ db := emptyDb, importFlag := false }, some (versionTooNewMsg 2)) := by
  have h := version_too_new_rejected vTooNewJson 2 (by decide) (by decide)
  exact ⟨h.1, h.2.1, h.2.2 { db := emptyDb, importFlag := false }⟩

/-! ## C1: referential integrity of the import -/

/-- C1: importing a validated envelope persists exactly the documents
whose `taskId` equals the id of some task of the same envelope (the
others are silently dropped), stores the task list as given and the two
settings keys from the envelope, and immediately afterwards every stored
document's `taskId` matches some stored task's id. -/
theorem importAllData_referential_integrity (env : Json) (s : DbState)
    (hv : (validateImportData env).valid = true) :
    ∃ ts ds stg cb vmv s',
      env.getField "tasks" = some (.arr ts) ∧
      env.getField "documents" = some (.arr ds) ∧
      env.getField "settings" = some stg ∧
      stg.getField "columnById" = some cb ∧
      stg.getField "viewMode" = some vmv ∧
      importAllData env s = some s' ∧
      s'.tasks = ts ∧
      s'.documents =
        ds.filter (fun d => decide (d.getField "taskId" ∈ ts.map (fun t => t.getField "id"))) ∧
      s'.settings = [("columnById", cb), ("viewMode", vmv)] ∧
      (∀ d ∈ s'.documents, ∃ t ∈ s'.tasks, t.getField "id" = d.getField "taskId") := by
  obtain ⟨_, _, htasks, hdocs, hset⟩ := (validateImportData_valid_iff env).mp hv
  obtain ⟨ts, hts, _⟩ := htasks
  obtain ⟨ds, hds, _⟩ := hdocs
  obtain ⟨stg, hstg, _, hcb, hvmEx⟩ := hset
  obtain ⟨cb, hcbEq, _⟩ := (isObjectValue_iff _).mp hcb
  obtain ⟨vm, hvmEq, _⟩ := hvmEx
  refine ⟨ts, ds, stg, cb, .str vm,
    { tasks := ts
    , documents :=
        ds.filter (fun d => decide (d.getField "taskId" ∈ ts.map (fun t => t.getField "id")))
    , settings := [("columnById", cb), ("viewMode", .str vm)] },
    hts, hds, hstg, hcbEq, hvmEq, ?_, rfl, rfl, rfl, ?_⟩
  · unfold importAllData
    simp only [hts, hds, hstg, hcbEq, hvmEq]
    rfl
  · intro d hd
    rw [List.mem_filter] at hd
    have hmem := of_decide_eq_true hd.2
    rw [List.mem_map] at hmem
    obtain ⟨t, htmem, hteq⟩ := hmem
    exact ⟨t, htmem, hteq⟩

/-- C1 witness: the theorem evaluated at the sample envelope (one task,
one matching document, one orphan) over the empty database. -/
theorem importAllData_referential_integrity_witness :
    ∃ ts ds stg cb vmv s',
      sampleEnvelope.getField "tasks" = some (.arr ts) ∧
      sampleEnvelope.getField "documents" = some (.arr ds) ∧
      sampleEnvelope.getField "settings" = some stg ∧
      stg.getField "columnById" = some cb ∧
      stg.getField "viewMode" = some vmv ∧
      importAllData sampleEnvelope emptyDb = some s' ∧
      s'.tasks = ts ∧
      s'.documents =
        ds.filter (fun d => decide (d.getField "taskId" ∈ ts.map (fun t => t.getField "id"))) ∧
      s'.settings = [("columnById", cb), ("viewMode", vmv)] ∧
      (∀ d ∈ s'.documents, ∃ t ∈ s'.tasks, t.getField "id" = d.getField "taskId") :=
  importAllData_referential_integrity sampleEnvelope emptyDb (by decide)

/-! ## C2: round trip of the backup codec -/

/-- C2 counterexample: the round trip is not the identity on every store
state — a store whose only document is orphaned exports and re-imports
to a state without that document (the import silently drops it), so the
reconstructed state is not deep-equal to the pre-export state. -/
theorem roundTrip_not_identity :
    roundTrip orphanDbState "2026-01-01T00:00:00.000Z" ≠ some orphanDbState := by
  decide

/-- C2 (amended): for every store state whose stored tasks and documents
are well-formed records, whose settings table holds exactly the two
canonical keys (an object `columnById` and a supported `viewMode`
string), and with no orphaned documents, `parseImportFile` of the export
succeeds with no error and importing the parsed envelope reconstructs
exactly the pre-export state (the `exportedAt` timestamp is not part of
the store state). -/
theorem roundTrip_identity (s : DbState) (exportedAt : String)
    (htasks : ∀ t ∈ s.tasks, specTaskOk t)
    (hdocs : ∀ d ∈ s.documents, specDocOk d)
    (horph : ∀ d ∈ s.documents, d.getField "taskId" ∈ s.tasks.map (fun t => t.getField "id"))
    (hset : ∃ m vm, s.settings = [("columnById", Json.obj m), ("viewMode", Json.str vm)] ∧
      (vm = "list" ∨ vm = "columns" ∨ vm = "documents")) :
    (parseImportFile (some (exportAllData s exportedAt))).data =
      some (exportAllData s exportedAt) ∧
    (parseImportFile (some (exportAllData s exportedAt))).error = none ∧
    roundTrip s exportedAt = some s := by
  obtain ⟨m, vm, hsEq, hvmOk⟩ := hset
  have hcb : getSettingJson s "columnById" = some (.obj m) := by
    unfold getSettingJson
    rw [hsEq]
    rfl
  have hvm : getSettingJson s "viewMode" = some (.str vm) := by
    unfold getSettingJson
    rw [hsEq]
    rfl
  have hvalid : (validateImportData (exportAllData s exportedAt)).valid = true := by
    rw [validateImportData_valid_iff]
    refine ⟨rfl, ⟨EXPORT_VERSION, rfl, le_refl _⟩, ⟨s.tasks, rfl, htasks⟩,
      ⟨s.documents, rfl, hdocs⟩,
      ⟨.obj [ ("columnById", (getSettingJson s "columnById").getD (.obj []))
            , ("viewMode", (getSettingJson s "viewMode").getD (.str "list")) ],
        rfl, rfl, ?_, ⟨vm, ?_, hvmOk⟩⟩⟩
    · show isObjectValue (some ((getSettingJson s "columnById").getD (.obj []))) = true
      rw [hcb]
      rfl
    · show some ((getSettingJson s "viewMode").getD (.str "list")) = some (.str vm)
      rw [hvm]
      rfl
  have hparse : parseImportFile (some (exportAllData s exportedAt)) =
      { data := some (exportAllData s exportedAt), error := none } := by
    unfold parseImportFile
    simp [hvalid]
  have hfilter : s.documents.filter
      (fun d => decide (d.getField "taskId" ∈ s.tasks.map (fun t => t.getField "id")))
      = s.documents := by
    rw [List.filter_eq_self]
    intro d hd
    exact decide_eq_true (horph d hd)
  refine ⟨by rw [hparse], by rw [hparse], ?_⟩
  unfold roundTrip
  rw [hparse]
  calc importAllData (exportAllData s exportedAt) s
      = some { tasks := s.tasks
             , documents := s.documents.filter
                 (fun d => decide (d.getField "taskId" ∈ s.tasks.map (fun t => t.getField "id")))
             , settings :=
                 [ ("columnById", (getSettingJson s "columnById").getD (.obj []))
                 , ("viewMode", (getSettingJson s "viewMode").getD (.str "list")) ] } := rfl
    _ = some s := by
        rw [hfilter, hcb, hvm]
        simp only [Option.getD_some]
        rw [← hsEq]

/-- C2 witness (for the amended theorem): a concrete well-formed store
round-trips to itself. -/
theorem roundTrip_identity_witness :
    (parseImportFile (some (exportAllData wellFormedDbState "2026-01-01T00:00:00.000Z"))).data =
      some (exportAllData wellFormedDbState "2026-01-01T00:00:00.000Z") ∧
    (parseImportFile (some (exportAllData wellFormedDbState "2026-01-01T00:00:00.000Z"))).error
      = none ∧
    roundTrip wellFormedDbState "2026-01-01T00:00:00.000Z" = some wellFormedDbState :=
  roundTrip_identity wellFormedDbState "2026-01-01T00:00:00.000Z"
    (by
      intro t ht
      simp [wellFormedDbState] at ht
      subst ht
      exact ⟨⟨"t1", rfl⟩, ⟨"Task one", rfl⟩, ⟨[], rfl⟩⟩)
    (by
      intro d hd
      simp [wellFormedDbState] at hd
      subst hd
      exact ⟨⟨"d1", rfl⟩, ⟨"t1", rfl⟩, ⟨"Doc one", rfl⟩⟩)
    (by decide)
    ⟨[], "list", rfl, Or.inl rfl⟩

/-! ## Association-list lemmas -/

theorem lookupKey_setKey {α : Type} (m : List (String × α)) (k : String) (v : α)
    (key : String) :
    lookupKey (setKey m k v) key = if key = k then some v else lookupKey m key := by
  induction m with
  | nil =>
    by_cases h : key = k
    · subst h
      rw [if_pos rfl, setKey, lookupKey, if_pos rfl]
    · rw [if_neg h, setKey, lookupKey, lookupKey, if_neg (Ne.symm h), lookupKey]
  | cons hd tl ih =>
    obtain ⟨k', v'⟩ := hd
    by_cases hk : k' = k
    · subst hk
      rw [setKey, if_pos rfl]
      by_cases h : key = k'
      · subst h
        rw [if_pos rfl, lookupKey, if_pos rfl]
      · rw [if_neg h, lookupKey, if_neg (Ne.symm h), lookupKey, if_neg (Ne.symm h)]
    · rw [setKey, if_neg hk]
      by_cases h' : k' = key
      · subst h'
        rw [lookupKey, if_pos rfl, if_neg (fun e => hk e), lookupKey, if_pos rfl]
      · rw [lookupKey, if_neg h', ih]
        by_cases h : key = k
        · rw [if_pos h, if_pos h]
        · rw [if_neg h, if_neg h, lookupKey, if_neg h']

theorem eraseKey_sublist {α : Type} (m : List (String × α)) (k : String) :
    (eraseKey m k).Sublist m := by
  induction m with
  | nil => simp [eraseKey]
  | cons hd tl ih =>
    obtain ⟨k', v'⟩ := hd
    by_cases h : k' = k
    · simp [eraseKey, h]
    · simpa [eraseKey, h] using ih.cons₂ (k', v')

theorem mem_eraseKey_of_nodup {α : Type} {m : List (String × α)} {k : String}
    {p : String × α} (hnd : (m.map Prod.fst).Nodup) (hp : p ∈ eraseKey m k) :
    p ∈ m ∧ p.1 ≠ k := by
  induction m with
  | nil => simp [eraseKey] at hp
  | cons hd tl ih =>
    obtain ⟨k', v'⟩ := hd
    simp only [List.map_cons, List.nodup_cons] at hnd
    by_cases h : k' = k
    · subst h
      rw [eraseKey, if_pos rfl] at hp
      refine ⟨List.mem_cons_of_mem _ hp, ?_⟩
      intro hk
      exact hnd.1 (hk ▸ List.mem_map_of_mem Prod.fst hp)
    · rw [eraseKey, if_neg h] at hp
      rcases List.mem_cons.mp hp with h' | h'
      · subst h'
        exact ⟨List.mem_cons_self _ _, h⟩
      · obtain ⟨hmem, hne⟩ := ih hnd.2 h'
        exact ⟨List.mem_cons_of_mem _ hmem, hne⟩

theorem eraseKey_nodup {α : Type} {m : List (String × α)} (k : String)
    (hnd : (m.map Prod.fst).Nodup) : ((eraseKey m k).map Prod.fst).Nodup :=
  ((eraseKey_sublist m k).map Prod.fst).nodup hnd

theorem lookupKey_eraseKey_self {α : Type} {m : List (String × α)} {k : String}
    (hnd : (m.map Prod.fst).Nodup) : lookupKey (eraseKey m k) k = none := by
  induction m with
  | nil => simp [eraseKey, lookupKey]
  | cons hd tl ih =>
    obtain ⟨k', v'⟩ := hd
    simp only [List.map_cons, List.nodup_cons] at hnd
    by_cases h : k' = k
    · subst h
      rw [eraseKey, if_pos rfl]
      cases hlk : lookupKey tl k' with
      | none => rfl
      | some w =>
        exfalso
        apply hnd.1
        clear ih hnd
        induction tl with
        | nil => simp [lookupKey] at hlk
        | cons hd' tl' ih' =>
          obtain ⟨k'', v''⟩ := hd'
          rw [lookupKey] at hlk
          split_ifs at hlk with h'
          · subst h'
            exact List.mem_map_of_mem Prod.fst (List.mem_cons_self _ _)
          · exact List.mem_cons_of_mem _ (ih' hlk)
    · rw [eraseKey, if_neg h, lookupKey, if_neg h]
      exact ih hnd.2

theorem mem_foldl_eraseKey {l : List DocumentRecord} {m : List (String × DocumentRecord)}
    {p : String × DocumentRecord}
    (hnd : (m.map Prod.fst).Nodup)
    (hp : p ∈ l.foldl (fun acc d => eraseKey acc d.id) m) :
    p ∈ m ∧ ∀ d ∈ l, p.1 ≠ d.id := by
  induction l generalizing m with
  | nil => simpa using hp
  | cons d l ih =>
    rw [List.foldl_cons] at hp
    obtain ⟨hmem, hrest⟩ := ih (eraseKey_nodup d.id hnd) hp
    obtain ⟨hmem', hne⟩ := mem_eraseKey_of_nodup hnd hmem
    refine ⟨hmem', ?_⟩
    intro d' hd'
    rcases List.mem_cons.mp hd' with h | h
    · exact h ▸ hne
    · exact hrest d' h

/-! ## C5: suspend-on-import for the debounced writes -/

/-- C5: a debounced write whose timer fires while the process-wide
suspend flag is set performs no store write, and the pending value is
discarded rather than retried or deferred — for each of the three
task/settings slices (the captured value is dropped with the spent
timer) and for the document hook (the pending-saves map is cleared). -/
theorem debounced_write_suspended_on_import
    (ts : TaskHookState) (ds : DocHookState)
    (d1 : Nat) (its : List TaskRecord) (h1 : ts.itemsTimer = some (d1, its))
    (d2 : Nat) (cols : List (String × ColumnId)) (h2 : ts.columnByIdTimer = some (d2, cols))
    (d3 : Nat) (vmv : ViewMode) (h3 : ts.viewModeTimer = some (d3, vmv))
    (d4 : Nat) (h4 : ds.saveTimer = some d4) :
    fireItemsTimer true ts = ({ ts with itemsTimer := none }, []) ∧
    fireColumnByIdTimer true ts = ({ ts with columnByIdTimer := none }, []) ∧
    fireViewModeTimer true ts = ({ ts with viewModeTimer := none }, []) ∧
    fireSaveTimer true ds = ({ ds with saveTimer := none, pendingSaves := [] }, []) := by
  refine ⟨?_, ?_, ?_, ?_⟩
  · unfold fireItemsTimer
    rw [h1]
    rfl
  · unfold fireColumnByIdTimer
    rw [h2]
    rfl
  · unfold fireViewModeTimer
    rw [h3]
    rfl
  · unfold fireSaveTimer
    rw [h4]
    rfl

/-- C5 witness: the theorem evaluated at concrete hook states with all
timers armed — nothing is written and the pending values are gone. -/
theorem debounced_write_suspended_on_import_witness :
    fireItemsTimer true busyTaskHook = ({ busyTaskHook with itemsTimer := none }, []) ∧
    fireColumnByIdTimer true busyTaskHook =
      ({ busyTaskHook with columnByIdTimer := none }, []) ∧
    fireViewModeTimer true busyTaskHook = ({ busyTaskHook with viewModeTimer := none }, []) ∧
    fireSaveTimer true busyDocHook =
      ({ busyDocHook with saveTimer := none, pendingSaves := [] }, []) :=
  debounced_write_suspended_on_import busyTaskHook busyDocHook
    taskStoreDebounceMs [sampleTask] rfl
    taskStoreDebounceMs [("t1", .column1)] rfl
    taskStoreDebounceMs .list rfl
    docStoreDebounceMs rfl

/-! ## C6: debounce coalescing -/

theorem foldl_setItemsEffect_last :
    ∀ (ms : List (List TaskRecord)) (lastItems : List TaskRecord) (ts : TaskHookState),
      ms.getLast? = some lastItems →
      ms.foldl (fun st m => setItemsEffect m st) ts =
        { ts with items := lastItems, itemsTimer := some (taskStoreDebounceMs, lastItems) }
  | [], _, _, h => by simp at h
  | [m], lastItems, ts, h => by
    simp only [List.getLast?_singleton, Option.some.injEq] at h
    subst h
    rfl
  | m :: m' :: ms, lastItems, ts, h => by
    rw [List.getLast?_cons_cons] at h
    rw [List.foldl_cons, foldl_setItemsEffect_last (m' :: ms) lastItems (setItemsEffect m ts) h]
    rfl

theorem foldl_scheduleSave_timer :
    ∀ (docs : List DocumentRecord) (ds : DocHookState), docs ≠ [] →
      (docs.foldl (fun st d => scheduleSave d st) ds).saveTimer = some docStoreDebounceMs
  | [], _, h => absurd rfl h
  | [_], _, _ => rfl
  | _ :: d' :: docs, ds, _ => by
    rw [List.foldl_cons]
    exact foldl_scheduleSave_timer (d' :: docs) _ (by simp)

theorem foldl_scheduleSave_lookup :
    ∀ (docs : List DocumentRecord) (ds : DocHookState) (k : String),
      lookupKey (docs.foldl (fun st d => scheduleSave d st) ds).pendingSaves k =
        (docs.reverse.find? (fun d => decide (d.id = k))).or (lookupKey ds.pendingSaves k)
  | [], ds, k => by simp
  | d :: docs, ds, k => by
    rw [List.foldl_cons, foldl_scheduleSave_lookup docs (scheduleSave d ds) k]
    rw [show (scheduleSave d ds).pendingSaves = setKey ds.pendingSaves d.id d from rfl]
    rw [lookupKey_setKey, List.reverse_cons, List.find?_append, Option.or_assoc]
    cases hfind : docs.reverse.find? (fun d' => decide (d'.id = k)) with
    | some x => rfl
    | none =>
      show (if k = d.id then some d else lookupKey ds.pendingSaves k) =
        (List.find? (fun d' => decide (d'.id = k)) [d]).or (lookupKey ds.pendingSaves k)
      by_cases h : d.id = k
      · have hone : List.find? (fun d' => decide (d'.id = k)) [d] = some d := by
          simp [List.find?, h]
        rw [if_pos h.symm, hone]
        rfl
      · have hone : List.find? (fun d' => decide (d'.id = k)) [d] = none := by
          simp [List.find?, h]
        rw [if_neg (fun e => h e.symm), hone]
        rfl

/-- C6 counterexample: the claimed 500 ms delay for document content
edits is wrong for the persistence hook that owns the pending-writes
map — `scheduleSave` restarts its timer to `DEBOUNCE_MS = 300`, the same
delay as the task/settings hook (a separate 500 ms autosave timer lives
upstream in the editor modal, which has no pending map and issues no
store writes). -/
theorem docStoreDebounce_not_500ms :
    (scheduleSave sampleDoc emptyDocHook).saveTimer = some docStoreDebounceMs ∧
    docStoreDebounceMs = 300 ∧ ¬ docStoreDebounceMs = 500 := by
  refine ⟨rfl, rfl, by decide⟩

/-- C6 (amended): every mutation in a burst restarts the slice's timer
to its fixed delay — 300 ms for both the tasks/settings slices and the
document store slice (`DEBOUNCE_MS = 300` in both hooks) — and when the
timer fires with no import in flight, the tasks slice issues exactly one
`saveTasks` carrying the last mutation's value, and the document slice
drains the pending-writes map (keyed by document id, not a queue) in a
single flush whose write for each id carries the last value scheduled
for that id. -/
theorem debounce_coalescing
    (ms : List (List TaskRecord)) (lastItems : List TaskRecord)
    (hms : ms.getLast? = some lastItems) (ts : TaskHookState)
    (docs : List DocumentRecord) (hdocs : docs ≠ []) (ds : DocHookState) :
    (ms.foldl (fun st m => setItemsEffect m st) ts).items = lastItems ∧
    (ms.foldl (fun st m => setItemsEffect m st) ts).itemsTimer =
      some (taskStoreDebounceMs, lastItems) ∧
    taskStoreDebounceMs = 300 ∧
    fireItemsTimer false (ms.foldl (fun st m => setItemsEffect m st) ts) =
      ({ ms.foldl (fun st m => setItemsEffect m st) ts with itemsTimer := none },
       [.saveTasksOp lastItems]) ∧
    (docs.foldl (fun st d => scheduleSave d st) ds).saveTimer = some docStoreDebounceMs ∧
    docStoreDebounceMs = 300 ∧
    (∀ k, lookupKey (docs.foldl (fun st d => scheduleSave d st) ds).pendingSaves k =
      (docs.reverse.find? (fun d => decide (d.id = k))).or (lookupKey ds.pendingSaves k)) ∧
    fireSaveTimer false (docs.foldl (fun st d => scheduleSave d st) ds) =
      ({ docs.foldl (fun st d => scheduleSave d st) ds with
          saveTimer := none, pendingSaves := [] },
       (docs.foldl (fun st d => scheduleSave d st) ds).pendingSaves.map
         (fun p => .putDocOp p.2)) := by
  have hts := foldl_setItemsEffect_last ms lastItems ts hms
  have htimer := foldl_scheduleSave_timer docs ds hdocs
  refine ⟨by rw [hts], by rw [hts], rfl, ?_, htimer, rfl,
    fun k => foldl_scheduleSave_lookup docs ds k, ?_⟩
  · rw [hts]
    rfl
  · unfold fireSaveTimer
    rw [htimer]
    rfl

/-- C6 witness: two rapid task mutations coalesce into one `saveTasks`
of the final list, and two schedules of the same document id keep only
the later revision. -/
theorem debounce_coalescing_witness :
    ([[], [sampleTask]].foldl (fun st m => setItemsEffect m st) emptyTaskHook).items
      = [sampleTask] ∧
    ([[], [sampleTask]].foldl (fun st m => setItemsEffect m st) emptyTaskHook).itemsTimer =
      some (taskStoreDebounceMs, [sampleTask]) ∧
    taskStoreDebounceMs = 300 ∧
    fireItemsTimer false ([[], [sampleTask]].foldl (fun st m => setItemsEffect m st)
        emptyTaskHook) =
      ({ [[], [sampleTask]].foldl (fun st m => setItemsEffect m st) emptyTaskHook with
          itemsTimer := none },
       [.saveTasksOp [sampleTask]]) ∧
    ([sampleDoc, sampleDocEdit].foldl (fun st d => scheduleSave d st) emptyDocHook).saveTimer
      = some docStoreDebounceMs ∧
    docStoreDebounceMs = 300 ∧
    (∀ k, lookupKey
        ([sampleDoc, sampleDocEdit].foldl (fun st d => scheduleSave d st)
          emptyDocHook).pendingSaves k =
      ([sampleDoc, sampleDocEdit].reverse.find? (fun d => decide (d.id = k))).or
        (lookupKey emptyDocHook.pendingSaves k)) ∧
    fireSaveTimer false ([sampleDoc, sampleDocEdit].foldl (fun st d => scheduleSave d st)
        emptyDocHook) =
      ({ [sampleDoc, sampleDocEdit].foldl (fun st d => scheduleSave d st) emptyDocHook with
          saveTimer := none, pendingSaves := [] },
       ([sampleDoc, sampleDocEdit].foldl (fun st d => scheduleSave d st)
         emptyDocHook).pendingSaves.map (fun p => .putDocOp p.2)) :=
  debounce_coalescing [[], [sampleTask]] [sampleTask] rfl emptyTaskHook
    [sampleDoc, sampleDocEdit] (by decide) emptyDocHook

/-! ## C7: cascade delete -/

theorem mem_putDocument {docs : List DocumentRecord} {x d : DocumentRecord}
    (h : d ∈ putDocument docs x) : d ∈ docs ∨ d = x := by
  unfold putDocument at h
  split_ifs at h with hany
  · rcases List.mem_map.mp h with ⟨y, hy, hyd⟩
    by_cases hid : y.id = x.id
    · rw [if_pos hid] at hyd
      exact Or.inr hyd.symm
    · rw [if_neg hid] at hyd
      exact Or.inl (hyd ▸ hy)
  · rcases List.mem_append.mp h with h' | h'
    · exact Or.inl h'
    · exact Or.inr (List.mem_singleton.mp h')

theorem applyOps_puts_preserve (tid : String) :
    ∀ (ps : List (String × DocumentRecord)) (db : HookDb),
      (∀ d ∈ db.documents, d.taskId ≠ tid) →
      (∀ p ∈ ps, p.2.taskId ≠ tid) →
      ∀ d ∈ (applyOps (ps.map (fun p => .putDocOp p.2)) db).documents, d.taskId ≠ tid
  | [], _, hdb, _, d, hd => hdb d hd
  | p :: ps, db, hdb, hps, d, hd => by
    have hstep : ∀ d' ∈ (applyOp db (.putDocOp p.2)).documents, d'.taskId ≠ tid := by
      intro d' hd'
      rcases mem_putDocument hd' with h' | h'
      · exact hdb d' h'
      · exact h' ▸ hps p (List.mem_cons_self _ _)
    exact applyOps_puts_preserve tid ps (applyOp db (.putDocOp p.2)) hstep
      (fun q hq => hps q (List.mem_cons_of_mem _ hq)) d hd

/-- C7: deleting task `tid` removes it and its column mapping from
memory, removes every document with that `taskId` from the document
hook's memory and cancels their pending debounced saves, and once the
cascade delete op and the later debounce flush have both hit the store,
no document with that `taskId` exists in the store — a save scheduled
before the delete cannot resurrect a deleted document.  The hypotheses
are the hook's own invariants: the pending map and the column map have
unique keys, and every pending entry is keyed by its document's id with
that document present in memory under the same task. -/
theorem removeItem_cascade (tid : String) (ts : TaskHookState) (ds : DocHookState)
    (db : HookDb)
    (hnd : (ds.pendingSaves.map Prod.fst).Nodup)
    (hcolnd : (ts.columnById.map Prod.fst).Nodup)
    (hpend : ∀ p ∈ ds.pendingSaves, p.2.id = p.1 ∧
      ∃ dm ∈ ds.documents, dm.id = p.1 ∧ dm.taskId = p.2.taskId) :
    (∀ it ∈ (removeItem tid ts ds).1.items, it.id ≠ tid) ∧
    lookupKey (removeItem tid ts ds).1.columnById tid = none ∧
    (∀ d ∈ (removeItem tid ts ds).2.1.documents, d.taskId ≠ tid) ∧
    (∀ p ∈ (removeItem tid ts ds).2.1.pendingSaves, p.2.taskId ≠ tid) ∧
    (∀ d ∈ (applyOps ((removeItem tid ts ds).2.2 ++
        (fireSaveTimer false (removeItem tid ts ds).2.1).2) db).documents,
      d.taskId ≠ tid) := by
  have hpend' : ∀ p ∈ (deleteDocumentsByTaskId tid ds).1.pendingSaves, p.2.taskId ≠ tid := by
    intro p hp htid
    have hp' : p ∈ (ds.documents.filter (fun d => decide (d.taskId = tid))).foldl
        (fun acc d => eraseKey acc d.id) ds.pendingSaves := hp
    obtain ⟨hmem, hforall⟩ := mem_foldl_eraseKey hnd hp'
    obtain ⟨hid, dm, hdmMem, hdmId, hdmTask⟩ := hpend p hmem
    exact hforall dm
      (List.mem_filter.mpr ⟨hdmMem, decide_eq_true (hdmTask.trans htid)⟩) hdmId.symm
  have hdel : ∀ d ∈ (applyOp db (.deleteDocsByTaskOp tid)).documents, d.taskId ≠ tid := by
    intro d hd
    exact of_decide_eq_true (List.mem_filter.mp hd).2
  refine ⟨?_, ?_, ?_, hpend', ?_⟩
  · intro it hit
    exact of_decide_eq_true (List.mem_filter.mp hit).2
  · exact lookupKey_eraseKey_self hcolnd
  · intro d hd
    exact of_decide_eq_true (List.mem_filter.mp hd).2
  · show ∀ d ∈ (applyOps ([StoreOp.deleteDocsByTaskOp tid] ++
      (fireSaveTimer false (deleteDocumentsByTaskId tid ds).1).2) db).documents, d.taskId ≠ tid
    have htimerEq : (deleteDocumentsByTaskId tid ds).1.saveTimer = ds.saveTimer := rfl
    cases htimer : ds.saveTimer with
    | none =>
      have hfire : (fireSaveTimer false (deleteDocumentsByTaskId tid ds).1).2 = [] := by
        unfold fireSaveTimer
        rw [htimerEq, htimer]
      rw [hfire]
      intro d hd
      exact hdel d hd
    | some dly =>
      have hfire : (fireSaveTimer false (deleteDocumentsByTaskId tid ds).1).2 =
          (deleteDocumentsByTaskId tid ds).1.pendingSaves.map (fun p => .putDocOp p.2) := by
        unfold fireSaveTimer
        rw [htimerEq, htimer]
        rfl
      rw [hfire]
      intro d hd
      exact applyOps_puts_preserve tid (deleteDocumentsByTaskId tid ds).1.pendingSaves
        (applyOp db (.deleteDocsByTaskOp tid)) hdel hpend' d hd

/-- C7 witness: deleting task `t1` while a pending edit of its document
is scheduled; after the delete and the timer firing, neither memory nor
the store holds a document of `t1`. -/
theorem removeItem_cascade_witness :
    (∀ it ∈ (removeItem "t1" busyTaskHook busyDocHook).1.items, it.id ≠ "t1") ∧
    lookupKey (removeItem "t1" busyTaskHook busyDocHook).1.columnById "t1" = none ∧
    (∀ d ∈ (removeItem "t1" busyTaskHook busyDocHook).2.1.documents, d.taskId ≠ "t1") ∧
    (∀ p ∈ (removeItem "t1" busyTaskHook busyDocHook).2.1.pendingSaves,
      p.2.taskId ≠ "t1") ∧
    (∀ d ∈ (applyOps ((removeItem "t1" busyTaskHook busyDocHook).2.2 ++
        (fireSaveTimer false (removeItem "t1" busyTaskHook busyDocHook).2.1).2)
        emptyHookDb).documents,
      d.taskId ≠ "t1") :=
  removeItem_cascade "t1" busyTaskHook busyDocHook emptyHookDb
    (by decide) (by decide) (by decide)

/-! ## C8: sub-task auto-transition -/

theorem foldl_toggleStep_no_match :
    ∀ (l : List TaskRecord) (editId subTaskId : String)
      (origCols : List (String × ColumnId))
      (acc : List TaskRecord × List (String × ColumnId)),
      (∀ x ∈ l, x.id ≠ editId) →
      (l.foldl (toggleSubTaskStep editId subTaskId origCols) acc).2 = acc.2
  | [], _, _, _, _, _ => rfl
  | item :: l, editId, subTaskId, origCols, acc, h => by
    rw [List.foldl_cons]
    have hstep : toggleSubTaskStep editId subTaskId origCols acc item
        = (acc.1 ++ [item], acc.2) := by
      unfold toggleSubTaskStep
      rw [if_neg (h item (List.mem_cons_self _ _))]
    rw [hstep]
    exact foldl_toggleStep_no_match l editId subTaskId origCols _
      (fun x hx => h x (List.mem_cons_of_mem _ hx))

theorem foldl_toggleStep_cols :
    ∀ (l : List TaskRecord) (editId subTaskId : String)
      (origCols : List (String × ColumnId))
      (acc : List TaskRecord × List (String × ColumnId)) (tid : String),
      lookupKey (l.foldl (toggleSubTaskStep editId subTaskId origCols) acc).2 tid
          = lookupKey acc.2 tid ∨
        lookupKey (l.foldl (toggleSubTaskStep editId subTaskId origCols) acc).2 tid
          = some ColumnId.column2
  | [], _, _, _, _, _ => Or.inl rfl
  | item :: l, editId, subTaskId, origCols, acc, tid => by
    rw [List.foldl_cons]
    rcases foldl_toggleStep_cols l editId subTaskId origCols
        (toggleSubTaskStep editId subTaskId origCols acc item) tid with h | h
    · rw [h]
      unfold toggleSubTaskStep
      split_ifs with h1
      · dsimp only
        split_ifs with h2
        · rw [lookupKey_setKey]
          by_cases htid : tid = item.id
          · rw [if_pos htid]
            exact Or.inr rfl
          · rw [if_neg htid]
            exact Or.inl rfl
        · exact Or.inl rfl
      · exact Or.inl rfl
    · exact Or.inr h

/-- C8: toggling a sub-task to completed while its task is mapped to the
"not started" column (`column-1`, the default for unmapped tasks too)
moves that task's column mapping to "in progress" (`column-2`); the
transition is one-directional — a toggle only ever writes `column-2`
into the column map, so toggling the sub-task back to incomplete never
moves the task back to "not started". -/
theorem toggleSubTask_auto_transition
    (items : List TaskRecord) (cols : List (String × ColumnId))
    (item : TaskRecord) (sub : SubTask)
    (hmem : item ∈ items) (hnodup : (items.map TaskRecord.id).Nodup)
    (hsub : sub ∈ item.subTasks) (hinc : sub.completed = false)
    (hcol : lookupKey cols item.id = none ∨
      lookupKey cols item.id = some ColumnId.column1) :
    lookupKey (toggleSubTask (some item.id) sub.id items cols).2 item.id
      = some ColumnId.column2 ∧
    (∀ (editingItemId : Option String) (subTaskId : String) (items' : List TaskRecord)
        (cols' : List (String × ColumnId)) (tid : String),
      lookupKey (toggleSubTask editingItemId subTaskId items' cols').2 tid
          = lookupKey cols' tid ∨
        lookupKey (toggleSubTask editingItemId subTaskId items' cols').2 tid
          = some ColumnId.column2) := by
  constructor
  · obtain ⟨l₁, l₂, rfl⟩ := List.append_of_mem hmem
    rw [List.map_append, List.map_cons, List.nodup_append] at hnodup
    obtain ⟨hnd1, hnd2, hdisj⟩ := hnodup
    rw [List.nodup_cons] at hnd2
    have hno1 : ∀ x ∈ l₁, x.id ≠ item.id := by
      intro x hx he
      apply hdisj (List.mem_map_of_mem TaskRecord.id hx)
      rw [he]
      exact List.mem_cons_self _ _
    have hno2 : ∀ x ∈ l₂, x.id ≠ item.id := by
      intro x hx he
      exact hnd2.1 (he ▸ List.mem_map_of_mem TaskRecord.id hx)
    show lookupKey (((l₁ ++ item :: l₂).foldl
        (toggleSubTaskStep item.id sub.id cols) ([], cols)).2) item.id
      = some ColumnId.column2
    rw [List.foldl_append, List.foldl_cons]
    have hacc1 : (l₁.foldl (toggleSubTaskStep item.id sub.id cols) ([], cols)).2 = cols :=
      foldl_toggleStep_no_match l₁ item.id sub.id cols ([], cols) hno1
    have hcomp : (item.subTasks.map
        (fun s => if s.id = sub.id then { s with completed := !s.completed } else s)).any
          (fun s => s.completed) = true := by
      rw [List.any_eq_true]
      refine ⟨{ sub with completed := !sub.completed },
        List.mem_map.mpr ⟨sub, hsub, by rw [if_pos rfl]⟩, ?_⟩
      rw [hinc]
      rfl
    have hcur : (lookupKey cols item.id).getD DEFAULT_COLUMN = ColumnId.column1 := by
      rcases hcol with h | h <;> rw [h] <;> rfl
    have hstep : (toggleSubTaskStep item.id sub.id cols
        (l₁.foldl (toggleSubTaskStep item.id sub.id cols) ([], cols)) item).2 =
        setKey (l₁.foldl (toggleSubTaskStep item.id sub.id cols) ([], cols)).2 item.id
          ColumnId.column2 := by
      unfold toggleSubTaskStep
      rw [if_pos rfl]
      dsimp only
      rw [if_pos (by rw [Bool.and_eq_true]; exact ⟨hcomp, decide_eq_true hcur⟩)]
    have hfin := foldl_toggleStep_no_match l₂ item.id sub.id cols
      (toggleSubTaskStep item.id sub.id cols
        (l₁.foldl (toggleSubTaskStep item.id sub.id cols) ([], cols)) item) hno2
    rw [hfin, hstep, hacc1, lookupKey_setKey, if_pos rfl]
  · intro editingItemId subTaskId items' cols' tid
    cases editingItemId with
    | none => exact Or.inl rfl
    | some e => exact foldl_toggleStep_cols items' e subTaskId cols' ([], cols') tid

/-- C8 witness: completing the incomplete sub-task of an unmapped task
moves it to `column-2`; toggling in a state already at `column-2` either
leaves the mapping or writes `column-2` — never `column-1`. -/
theorem toggleSubTask_auto_transition_witness :
    lookupKey (toggleSubTask (some "t1") "s1" [sampleTask] []).2 "t1"
      = some ColumnId.column2 ∧
    (lookupKey (toggleSubTask (some "t1") "s1" [sampleTask]
        [("t1", ColumnId.column2)]).2 "t1" = lookupKey [("t1", ColumnId.column2)] "t1" ∨
      lookupKey (toggleSubTask (some "t1") "s1" [sampleTask]
        [("t1", ColumnId.column2)]).2 "t1" = some ColumnId.column2) := by
  have h := toggleSubTask_auto_transition [sampleTask] [] sampleTask ⟨"s1", "Sub", false⟩
    (by decide) (by decide) (by decide) rfl (Or.inl rfl)
  exact ⟨h.1, h.2 (some "t1") "s1" [sampleTask] [("t1", ColumnId.column2)] "t1"⟩

/-! ## C9: mutations and the calling path -/

theorem foldl_updateDocumentStep (id : String) (u : DocumentUpdates) (now : Nat) :
    ∀ (l : List DocumentRecord) (xs : List DocumentRecord) (s : DocHookState),
      l.foldl (updateDocumentStep id u now) (xs, s) =
        (xs ++ l.map (fun d => if d.id = id then applyDocUpdates d u now else d),
         ((l.filter (fun d => decide (d.id = id))).map
           (fun d => applyDocUpdates d u now)).foldl (fun s' dd => scheduleSave dd s') s)
  | [], xs, s => by simp
  | doc :: l, xs, s => by
    rw [List.foldl_cons]
    by_cases h : doc.id = id
    · rw [show updateDocumentStep id u now (xs, s) doc
          = (xs ++ [applyDocUpdates doc u now], scheduleSave (applyDocUpdates doc u now) s)
        from by unfold updateDocumentStep; rw [if_pos h]]
      rw [foldl_updateDocumentStep id u now l (xs ++ [applyDocUpdates doc u now])
        (scheduleSave (applyDocUpdates doc u now) s)]
      rw [List.map_cons, if_pos h, List.filter_cons, if_pos (decide_eq_true h),
        List.map_cons, List.foldl_cons, List.append_assoc]
      rfl
    · rw [show updateDocumentStep id u now (xs, s) doc = (xs ++ [doc], s)
        from by unfold updateDocumentStep; rw [if_neg h]]
      rw [foldl_updateDocumentStep id u now l (xs ++ [doc]) s]
      rw [List.map_cons, if_neg h, List.filter_cons, if_neg (by simp [h]),
        List.append_assoc]
      rfl

theorem updateDocument_components (id : String) (u : DocumentUpdates) (now : Nat)
    (st : DocHookState) :
    (updateDocument id u now st).2 = [] ∧
    (updateDocument id u now st).1.documents =
      st.documents.map (fun d => if d.id = id then applyDocUpdates d u now else d) ∧
    (updateDocument id u now st).1.pendingSaves =
      (((st.documents.filter (fun d => decide (d.id = id))).map
        (fun d => applyDocUpdates d u now)).foldl
          (fun s' dd => scheduleSave dd s') st).pendingSaves ∧
    (updateDocument id u now st).1.saveTimer =
      (((st.documents.filter (fun d => decide (d.id = id))).map
        (fun d => applyDocUpdates d u now)).foldl
          (fun s' dd => scheduleSave dd s') st).saveTimer := by
  refine ⟨rfl, ?_, ?_, ?_⟩
  · show (st.documents.foldl (updateDocumentStep id u now) ([], st)).1 = _
    rw [foldl_updateDocumentStep id u now st.documents [] st]
    exact List.nil_append _
  · show (st.documents.foldl (updateDocumentStep id u now) ([], st)).2.pendingSaves = _
    rw [foldl_updateDocumentStep id u now st.documents [] st]
  · show (st.documents.foldl (updateDocumentStep id u now) ([], st)).2.saveTimer = _
    rw [foldl_updateDocumentStep id u now st.documents [] st]

/-- C9 counterexample: not every hook mutation operation merely updates
memory and schedules a debounced write — `deleteDocument` issues its
store delete synchronously on the calling path (its immediate op list is
non-empty). -/
theorem deleteDocument_writes_on_calling_path :
    (deleteDocument "d1" busyDocHook).2 = [.deleteDocOp "d1"] ∧
    ¬ (deleteDocument "d1" busyDocHook).2 = [] :=
  ⟨rfl, by decide⟩

/-- C9 (amended): every mutation operation updates in-memory state
synchronously; the task/settings setters and the document hook's
`addDocument` / `updateDocument` only restart their debounce timers and
record their value in memory and in the pending-saves map, issuing no
store operation on the calling path — for `updateDocument`, the
in-memory documents are replaced by their updated revisions, the single
debounce timer is restarted to `DEBOUNCE_MS` whenever a document
matched, and the pending-saves map holds the last updated revision per
matched id over the previous map — while the two document delete
operations update memory synchronously but additionally issue exactly
their store delete on the calling path (not debounced). -/
theorem mutation_scheduling
    (newItems : List TaskRecord) (newCols : List (String × ColumnId)) (newMode : ViewMode)
    (ts : TaskHookState) (ds : DocHookState) (newId : String) (now : Nat)
    (taskId title docId : String) (u : DocumentUpdates) (tid : String) :
    (setItemsEffect newItems ts).items = newItems ∧
    (setItemsEffect newItems ts).itemsTimer = some (taskStoreDebounceMs, newItems) ∧
    (setColumnByIdEffect newCols ts).columnById = newCols ∧
    (setColumnByIdEffect newCols ts).columnByIdTimer = some (taskStoreDebounceMs, newCols) ∧
    (setViewModeEffect newMode ts).viewMode = newMode ∧
    (setViewModeEffect newMode ts).viewModeTimer = some (taskStoreDebounceMs, newMode) ∧
    (addDocument newId now taskId title ds).2.2 = [] ∧
    (addDocument newId now taskId title ds).1.documents
      = ds.documents ++ [(addDocument newId now taskId title ds).2.1] ∧
    (addDocument newId now taskId title ds).1.saveTimer = some docStoreDebounceMs ∧
    lookupKey (addDocument newId now taskId title ds).1.pendingSaves newId
      = some (addDocument newId now taskId title ds).2.1 ∧
    (updateDocument docId u now ds).2 = [] ∧
    (updateDocument docId u now ds).1.documents
      = ds.documents.map (fun d => if d.id = docId then applyDocUpdates d u now else d) ∧
    (ds.documents.any (fun d => decide (d.id = docId)) = true →
      (updateDocument docId u now ds).1.saveTimer = some docStoreDebounceMs) ∧
    (ds.documents.any (fun d => decide (d.id = docId)) = false →
      (updateDocument docId u now ds).1.saveTimer = ds.saveTimer ∧
      (updateDocument docId u now ds).1.pendingSaves = ds.pendingSaves) ∧
    (∀ k, lookupKey (updateDocument docId u now ds).1.pendingSaves k =
      (((ds.documents.filter (fun d => decide (d.id = docId))).map
          (fun d => applyDocUpdates d u now)).reverse.find?
        (fun dd => decide (dd.id = k))).or (lookupKey ds.pendingSaves k)) ∧
    (deleteDocument docId ds).2 = [.deleteDocOp docId] ∧
    (deleteDocument docId ds).1.documents
      = ds.documents.filter (fun d => decide ¬(d.id = docId)) ∧
    (deleteDocumentsByTaskId tid ds).2 = [.deleteDocsByTaskOp tid] ∧
    (deleteDocumentsByTaskId tid ds).1.documents
      = ds.documents.filter (fun d => decide ¬(d.taskId = tid)) := by
  obtain ⟨hops, hdocs, hpend, htimer⟩ := updateDocument_components docId u now ds
  refine ⟨rfl, rfl, rfl, rfl, rfl, rfl, rfl, rfl, rfl, ?_, hops, hdocs, ?_, ?_, ?_,
    rfl, rfl, rfl, rfl⟩
  · rw [show (addDocument newId now taskId title ds).1.pendingSaves
        = setKey ds.pendingSaves newId (addDocument newId now taskId title ds).2.1 from rfl]
    rw [lookupKey_setKey, if_pos rfl]
  · intro hany
    rw [htimer]
    apply foldl_scheduleSave_timer
    intro hnil
    rw [List.map_eq_nil_iff, List.filter_eq_nil_iff] at hnil
    rcases List.any_eq_true.mp hany with ⟨x, hx, hpx⟩
    exact hnil x hx hpx
  · intro hany
    have hfil : ds.documents.filter (fun d => decide (d.id = docId)) = [] := by
      rw [List.filter_eq_nil_iff]
      intro a ha hpa
      have htrue : ds.documents.any (fun d => decide (d.id = docId)) = true :=
        List.any_eq_true.mpr ⟨a, ha, hpa⟩
      rw [hany] at htrue
      exact Bool.false_ne_true htrue
    rw [htimer, hpend, hfil]
    exact ⟨rfl, rfl⟩
  · intro k
    rw [hpend]
    exact foldl_scheduleSave_lookup _ ds k

/-! ## C10: deletes are not gated by the import flag -/

/-- C10: the document hook's delete operations issue their store deletes
unconditionally — neither consults the process-wide import flag (the
flag is no input of their behaviour), so a delete invoked while the flag
is set still mutates the store during the suspended window, while the
debounced save path does consult the flag (its timer firing with the
flag set emits no write). -/
theorem deletes_not_gated_by_import_flag (id tid : String) (ds : DocHookState)
    (db : HookDb) :
    (deleteDocument id ds).2 = [.deleteDocOp id] ∧
    (deleteDocumentsByTaskId tid ds).2 = [.deleteDocsByTaskOp tid] ∧
    (applyOps (deleteDocument id ds).2 db).documents =
      db.documents.filter (fun d => decide ¬(d.id = id)) ∧
    (applyOps (deleteDocumentsByTaskId tid ds).2 db).documents =
      db.documents.filter (fun d => decide ¬(d.taskId = tid)) ∧
    (fireSaveTimer true ds).2 = [] := by
  refine ⟨rfl, rfl, rfl, rfl, ?_⟩
  rcases hsv : ds.saveTimer with _ | dly <;> simp [fireSaveTimer, hsv]

end Khatwa
